import Mathlib

/-!
Shallow embedding of `src/StockProject.py` (a discounted-cash-flow stock
valuation script) and proofs about it.

Modelling conventions:
* Currency amounts and rates are rationals (`ℚ`), modelling the script's
  real-number arithmetic exactly.
* A pandas financial statement is a table keyed by row label and period
  column: we keep its row index, its column list and a lookup function.
* Python's `None` results become `Option`; a lookup that can raise a
  `KeyError` becomes `Except String`.
* `discounted_cash_flow_analysis` can (a) return `None`, (b) return a
  result tuple, or (c) raise an uncaught exception (`ZeroDivisionError`
  when `discount_rate - growth_rate = 0` or `1 + discount_rate = 0`,
  `IndexError` on `future_fcfs[-1]` when `years = 0`).  These three are
  the constructors of `DCFOutcome`.
* External collaborators (yfinance fetches, NewsAPI, TextBlob polarity)
  are parameters: the fetched statements, the market cap, the article
  list and the polarity function are inputs to the embedded functions.
-/

/-- A financial statement table: row labels (`index`), period columns
(`columns`), and the cell lookup `loc label period`.  Mirrors the pandas
DataFrame interface used by the script: `label ∈ index` is the membership
test on the row index, and reading a cell at a period that is not among
the columns raises a `KeyError`. -/
structure Statement where
  index : List String
  columns : List String
  loc : String → String → ℚ

/-- Embeds `safe_get(statement, possible_labels, col)` (line 12): walk the
candidate labels in order; at the first label present in the row index,
read `statement.loc[label][col]` — which raises a `KeyError` (modelled as
`.error`) when `col` is not a column of the statement; if no label
matches, return 0. -/
def safe_get (statement : Statement) (possible_labels : List String) (col : String) :
    Except String ℚ :=
  match possible_labels with
  | [] => .ok 0
  | label :: rest =>
    if label ∈ statement.index then
      if col ∈ statement.columns then .ok (statement.loc label col)
      else .error "KeyError"
    else safe_get statement rest col

/-- EBIT synonym list from `calculate_fcf` (line 25). -/
def ebit_labels : List String := ["Operating Income", "EBIT"]

/-- Depreciation synonym list from `calculate_fcf` (line 26). -/
def depreciation_labels : List String := ["Depreciation", "Depreciation & Amortization"]

/-- CapEx synonym list from `calculate_fcf` (line 27). -/
def capex_labels : List String := ["Capital Expenditures", "Capital expenditure"]

/-- Working-capital-change synonym list from `calculate_fcf` (line 28). -/
def wc_labels : List String := ["Change in Working Capital", "Changes in working capital"]

/-- Embeds `calculate_fcf(ticker)` (line 18).  The yfinance fetch of the
income and cash-flow statements is external; `fetch = none` models the
fetch itself raising.  Inside the `try` block: `income_stmt.columns[0]`
raises when there are no columns, the four `safe_get` calls may raise a
`KeyError`, and any exception is caught and turned into `None`.
Otherwise the function returns `ebit + depreciation - capex - wc_change`. -/
def calculate_fcf (fetch : Option (Statement × Statement)) : Option ℚ :=
  match fetch with
  | none => none
  | some (income_stmt, cashflow_stmt) =>
    match income_stmt.columns with
    | [] => none
    | latest_year :: _ =>
      match safe_get income_stmt ebit_labels latest_year,
            safe_get cashflow_stmt depreciation_labels latest_year,
            safe_get cashflow_stmt capex_labels latest_year,
            safe_get cashflow_stmt wc_labels latest_year with
      | .ok ebit, .ok depreciation, .ok capex, .ok wc_change =>
          some (ebit + depreciation - capex - wc_change)
      | _, _, _, _ => none

/-- The tuple returned by `discounted_cash_flow_analysis` (line 64):
`(intrinsic_value, market_cap, upside, discounted_fcfs,
discounted_terminal_value)`. -/
structure DCFResult where
  intrinsic_value : ℚ
  market_cap : ℚ
  upside : ℚ
  discounted_fcfs : List ℚ
  discounted_terminal_value : ℚ
deriving DecidableEq

/-- Possible outcomes of `discounted_cash_flow_analysis`: an explicit
`return None` (`absent`), an uncaught exception (`crash`), or a returned
result tuple (`ok`). -/
inductive DCFOutcome where
  | absent : DCFOutcome
  | crash : DCFOutcome
  | ok : DCFResult → DCFOutcome
deriving DecidableEq

/-- Embeds line 51: `future_fcfs = [fcf * (1 + growth_rate)**i for i in
range(1, years + 1)]`. -/
def future_fcfs (fcf growth_rate : ℚ) (years : ℕ) : List ℚ :=
  (List.range years).map fun i => fcf * (1 + growth_rate) ^ (i + 1)

/-- Embeds `discounted_cash_flow_analysis(ticker, years, discount_rate,
growth_rate)` (line 46).  The FCF computation and the market-cap fetch
are external inputs (`fcf?`, `market_cap`).  The function has no
`try`/`except`, so a zero denominator in the discounting or terminal
division, or `future_fcfs[-1]` on an empty list, is an uncaught
exception: `crash`.  Division order follows the source lines 51-62. -/
def discounted_cash_flow_analysis (fcf? : Option ℚ) (market_cap : ℚ)
    (years : ℕ := 5) (discount_rate : ℚ := 1/10) (growth_rate : ℚ := 1/20) :
    DCFOutcome :=
  match fcf? with
  | none => .absent
  | some fcf =>
    if fcf ≤ 0 then .absent
    else
      -- line 52 divides by (1 + discount_rate)^i for i = 1..years
      if 1 + discount_rate = 0 ∧ years ≠ 0 then .crash
      else
        let discounted_fcfs :=
          (future_fcfs fcf growth_rate years).mapIdx
            fun i f => f / (1 + discount_rate) ^ (i + 1)
        -- line 54: future_fcfs[-1] raises IndexError when the list is empty
        if years = 0 then .crash
        -- line 54 divides by (discount_rate - growth_rate)
        else if discount_rate - growth_rate = 0 then .crash
        else
          let terminal_value :=
            (future_fcfs fcf growth_rate years).getLastD 0 * (1 + growth_rate) /
              (discount_rate - growth_rate)
          let discounted_terminal_value :=
            terminal_value / (1 + discount_rate) ^ years
          let intrinsic_value := discounted_fcfs.sum + discounted_terminal_value
          let upside :=
            if market_cap > 0 then (intrinsic_value - market_cap) / market_cap * 100
            else 0
          .ok ⟨intrinsic_value, market_cap, upside, discounted_fcfs,
               discounted_terminal_value⟩

/-- The intrinsic value extracted from a DCF outcome (0 when the analysis
did not return a result tuple). -/
def dcfIntrinsic (fcf? : Option ℚ) (market_cap : ℚ) (years : ℕ)
    (discount_rate growth_rate : ℚ) : ℚ :=
  match discounted_cash_flow_analysis fcf? market_cap years discount_rate growth_rate with
  | .ok res => res.intrinsic_value
  | _ => 0

/-- The upside extracted from a DCF outcome (0 when the analysis did not
return a result tuple). -/
def dcfUpside (fcf? : Option ℚ) (market_cap : ℚ) (years : ℕ)
    (discount_rate growth_rate : ℚ) : ℚ :=
  match discounted_cash_flow_analysis fcf? market_cap years discount_rate growth_rate with
  | .ok res => res.upside
  | _ => 0

/-- Embeds `analyze_sentiment(news_list)` (line 87).  The TextBlob
polarity scorer is the external parameter `polarity`.  An empty list
returns 0; otherwise the arithmetic mean of the per-article polarities. -/
def analyze_sentiment (polarity : String → ℚ) (news_list : List String) : ℚ :=
  if news_list = [] then 0
  else (news_list.map polarity).sum / news_list.length

/-- Embeds line 113: `adjusted_upside = upside + sentiment_score * 50`. -/
def adjusted_upside (upside sentiment_score : ℚ) : ℚ :=
  upside + sentiment_score * 50

/-- Outcome of `evaluate_security` (line 95): the early-exit print-and-
return path when the DCF result is `None`, a report carrying the adjusted
upside, or a propagated uncaught exception. -/
inductive EvalOutcome where
  | earlyExit : EvalOutcome
  | crash : EvalOutcome
  | report : ℚ → EvalOutcome
deriving DecidableEq

/-- Embeds `evaluate_security(ticker)` (line 95) with the default DCF
parameters of line 99: early exit when `discounted_cash_flow_analysis`
returns `None`, otherwise sentiment adjustment of the upside.  News
retrieval and polarity scoring are external inputs. -/
def evaluate_security (fcf? : Option ℚ) (market_cap : ℚ)
    (news : List String) (polarity : String → ℚ) : EvalOutcome :=
  match discounted_cash_flow_analysis fcf? market_cap 5 (1/10) (1/20) with
  | .absent => .earlyExit
  | .crash => .crash
  | .ok res => .report (adjusted_upside res.upside (analyze_sentiment polarity news))

/-! ### Helper lemmas about lists built from `List.range` -/

lemma mapIdx_map_range {α β : Type} (f : ℕ → α → β) (h : ℕ → α) (n : ℕ) :
    ((List.range n).map h).mapIdx f = (List.range n).map fun i => f i (h i) := by
  induction n with
  | zero => simp
  | succ n ih =>
      rw [List.range_succ]
      simp only [List.map_append, List.map_cons, List.map_nil, List.mapIdx_append_one, ih,
        List.length_map, List.length_range]

lemma sum_map_range (f : ℕ → ℚ) (n : ℕ) :
    ((List.range n).map f).sum = ∑ i ∈ Finset.range n, f i := by
  induction n with
  | zero => simp
  | succ n ih =>
      rw [List.range_succ, List.map_append, List.sum_append, Finset.sum_range_succ, ih]
      simp

lemma getLastD_map_range (h : ℕ → ℚ) (n : ℕ) (hn : n ≠ 0) :
    ((List.range n).map h).getLastD 0 = h (n - 1) := by
  obtain ⟨m, rfl⟩ := Nat.exists_eq_succ_of_ne_zero hn
  rw [List.range_succ, List.map_append]
  simp [List.getLastD_concat]

lemma future_fcfs_getLastD (fcf g : ℚ) (years : ℕ) (hy : years ≠ 0) :
    (future_fcfs fcf g years).getLastD 0 = fcf * (1 + g) ^ years := by
  rw [future_fcfs, getLastD_map_range _ _ hy, Nat.sub_add_cancel (Nat.one_le_iff_ne_zero.mpr hy)]

/-- Shape of a successful run of `discounted_cash_flow_analysis`: under the
conditions ruling out the `None` return and the uncaught exceptions, the
returned tuple is given by the source's formulas. -/
lemma dcf_eq_ok (fcf market_cap discount_rate growth_rate : ℚ) (years : ℕ)
    (hf : 0 < fcf) (hy : years ≠ 0) (hr : 1 + discount_rate ≠ 0)
    (hrg : discount_rate - growth_rate ≠ 0) :
    discounted_cash_flow_analysis (some fcf) market_cap years discount_rate growth_rate =
      .ok ⟨(((List.range years).map fun i =>
              fcf * (1 + growth_rate) ^ (i + 1) / (1 + discount_rate) ^ (i + 1)).sum) +
             fcf * (1 + growth_rate) ^ years * (1 + growth_rate) /
               (discount_rate - growth_rate) / (1 + discount_rate) ^ years,
           market_cap,
           (if market_cap > 0 then
              ((((List.range years).map fun i =>
                   fcf * (1 + growth_rate) ^ (i + 1) / (1 + discount_rate) ^ (i + 1)).sum) +
                 fcf * (1 + growth_rate) ^ years * (1 + growth_rate) /
                   (discount_rate - growth_rate) / (1 + discount_rate) ^ years - market_cap) /
                market_cap * 100
            else 0),
           (List.range years).map fun i =>
             fcf * (1 + growth_rate) ^ (i + 1) / (1 + discount_rate) ^ (i + 1),
           fcf * (1 + growth_rate) ^ years * (1 + growth_rate) /
             (discount_rate - growth_rate) / (1 + discount_rate) ^ years⟩ := by
  have h1 : ¬ fcf ≤ 0 := not_le.mpr hf
  have h2 : ¬ (1 + discount_rate = 0 ∧ years ≠ 0) := fun h => hr h.1
  simp only [discounted_cash_flow_analysis, h1, if_false, h2, hy, hrg,
    future_fcfs_getLastD fcf growth_rate years hy, future_fcfs,
    mapIdx_map_range, ite_false]
  rw [getLastD_map_range _ _ hy, Nat.sub_add_cancel (Nat.one_le_iff_ne_zero.mpr hy)]

/-! ### Claim C2 (code bug: no validation for equal rates) -/

/-- C2: the spec requires `valuate` to fail with an explicit validation
error when the discount rate equals the growth rate, before the
terminal-value division.  The source has no such guard: at FCF = 1000000,
years = 5, discountRate = growthRate = 1/10 it reaches the terminal-value
division with a zero denominator and raises an uncaught
`ZeroDivisionError` (modelled as `crash`), not a validation error. -/
theorem dcf_equal_rates_crash :
    discounted_cash_flow_analysis (some 1000000) 0 5 (1/10) (1/10) = .crash := by
  norm_num [discounted_cash_flow_analysis]

/-! ### Claim C4 (nonpositive or unavailable FCF returns Absent) -/

/-- C4: whenever the estimated FCF is unavailable (`none`) or not
strictly positive, `discounted_cash_flow_analysis` returns the absent
value (`None`) and stops before any discounting — the result is `absent`
for every choice of market cap, horizon and rates, including rate choices
that would otherwise crash or produce results. -/
theorem dcf_absent_of_nonpositive_fcf (fcf? : Option ℚ) (market_cap : ℚ)
    (years : ℕ) (discount_rate growth_rate : ℚ)
    (h : fcf? = none ∨ ∃ f, fcf? = some f ∧ f ≤ 0) :
    discounted_cash_flow_analysis fcf? market_cap years discount_rate growth_rate =
      .absent := by
  rcases h with h | ⟨f, rfl, hf⟩
  · rw [h]; rfl
  · simp [discounted_cash_flow_analysis, hf]

/-- Witness for C4 at FCF = 0 with equal rates (the early exit precedes
the terminal-value division). -/
theorem dcf_absent_of_nonpositive_fcf_witness :
    discounted_cash_flow_analysis (some 0) 7 5 (1/10) (1/10) = .absent :=
  dcf_absent_of_nonpositive_fcf (some 0) 7 5 (1/10) (1/10)
    (Or.inr ⟨0, rfl, le_refl 0⟩)

/-! ### Claim C6 (resolver: first match in priority order, else 0) -/

/-- C6 counterexample: the claim says `resolveField` never raises for
missing data, but when a candidate label is present in the row index and
the statement lacks the requested period column, the cell access
`statement.loc[label][col]` raises a `KeyError`: here a statement whose
index contains "EBIT" but whose column list is empty. -/
theorem safe_get_raises_on_missing_column :
    safe_get ⟨["EBIT"], [], fun _ _ => 0⟩ ["EBIT"] "2023" = .error "KeyError" := by
  rfl

/-- C6 (amended): `safe_get` returns the value at the first candidate
label (in priority order) present in the statement's row index when the
statement has the requested period column, and returns 0 when no
candidate label matches; it raises only in the index-hit/column-miss
case excluded here. -/
theorem safe_get_resolution (st : Statement) (col : String) :
    (∀ labels : List String, (∀ l ∈ labels, l ∉ st.index) →
      safe_get st labels col = .ok 0)
    ∧ (∀ pre label rest, (∀ l ∈ pre, l ∉ st.index) → label ∈ st.index →
        col ∈ st.columns →
        safe_get st (pre ++ label :: rest) col = .ok (st.loc label col)) := by
  constructor
  · intro labels hmiss
    induction labels with
    | nil => rfl
    | cons l rest ih =>
        rw [safe_get, if_neg (hmiss l (List.mem_cons_self l rest))]
        exact ih fun x hx => hmiss x (List.mem_cons_of_mem l hx)
  · intro pre label rest hmiss hlabel hcol
    induction pre with
    | nil => rw [List.nil_append, safe_get, if_pos hlabel, if_pos hcol]
    | cons l pre ih =>
        rw [List.cons_append, safe_get, if_neg (hmiss l (List.mem_cons_self l pre))]
        exact ih fun x hx => hmiss x (List.mem_cons_of_mem l hx)

/-- Witness for C6 (amended) on a concrete statement: the preferred label
"Operating Income" is absent, the synonym "EBIT" resolves, and a
statement with no matching label yields 0. -/
theorem safe_get_resolution_witness :
    safe_get ⟨["EBIT"], ["2023"], fun _ _ => 42⟩
        ["Operating Income", "EBIT"] "2023" = .ok 42
    ∧ safe_get ⟨["Revenue"], ["2023"], fun _ _ => 42⟩
        ["Operating Income", "EBIT"] "2023" = .ok 0 := by
  constructor
  · exact (safe_get_resolution ⟨["EBIT"], ["2023"], fun _ _ => 42⟩ "2023").2
      ["Operating Income"] "EBIT" [] (by decide) (by decide) (by decide)
  · exact (safe_get_resolution ⟨["Revenue"], ["2023"], fun _ _ => 42⟩ "2023").1
      ["Operating Income", "EBIT"] (by decide)

/-! ### Claim C5 (FCF estimator formula) -/

/-- C5 counterexample: the claim says the computation proceeds only when
EBIT is retrievable from the latest period column.  On an income
statement with a period column but no EBIT/Operating Income row (here
both statements have empty row indexes), `calculate_fcf` still proceeds
and returns a value — EBIT silently defaults to 0 exactly like the other
fields. -/
theorem calculate_fcf_proceeds_without_ebit :
    calculate_fcf (some (⟨[], ["2023"], fun _ _ => 0⟩, ⟨[], ["2023"], fun _ _ => 0⟩)) =
      some 0 := by
  simp [calculate_fcf, safe_get, ebit_labels, depreciation_labels, capex_labels, wc_labels]

/-- C5 (amended): `calculate_fcf` returns
EBIT + Depreciation − CapEx − ΔWorkingCapital for the latest reporting
period (the first income-statement column), each component resolved via
`safe_get` with the documented synonym lists; the computation proceeds
whenever the income statement has at least one period column and no
lookup raises, with every absent field — EBIT included — defaulting
to 0. -/
theorem calculate_fcf_formula (income_stmt cashflow_stmt : Statement)
    (latest_year : String) (later_years : List String)
    (hcols : income_stmt.columns = latest_year :: later_years)
    (ebit depreciation capex wc_change : ℚ)
    (he : safe_get income_stmt ebit_labels latest_year = .ok ebit)
    (hd : safe_get cashflow_stmt depreciation_labels latest_year = .ok depreciation)
    (hc : safe_get cashflow_stmt capex_labels latest_year = .ok capex)
    (hw : safe_get cashflow_stmt wc_labels latest_year = .ok wc_change) :
    calculate_fcf (some (income_stmt, cashflow_stmt)) =
      some (ebit + depreciation - capex - wc_change) := by
  simp only [calculate_fcf, hcols, he, hd, hc, hw]

/-- Witness for C5 (amended) on concrete statements where all four
components resolve: FCF = 100 + 10 − 20 − 5 = 85. -/
theorem calculate_fcf_formula_witness :
    calculate_fcf (some
      (⟨["Operating Income"], ["2023"], fun _ _ => 100⟩,
       ⟨["Depreciation", "Capital Expenditures", "Change in Working Capital"], ["2023"],
        fun l _ => if l = "Depreciation" then 10
          else if l = "Capital Expenditures" then 20 else 5⟩)) = some 85 := by
  have h := calculate_fcf_formula
    ⟨["Operating Income"], ["2023"], fun _ _ => 100⟩
    ⟨["Depreciation", "Capital Expenditures", "Change in Working Capital"], ["2023"],
     fun l _ => if l = "Depreciation" then 10
       else if l = "Capital Expenditures" then 20 else 5⟩
    "2023" [] rfl 100 10 20 5 rfl rfl rfl rfl
  rw [h]; norm_num

/-! ### Claim C7 (upside percentage) -/

/-- C7: on a successful valuation, the upside is
(intrinsicValue − marketCap) / marketCap × 100 when marketCap > 0, and
exactly 0 otherwise. -/
theorem dcf_upside_formula (fcf market_cap : ℚ) (years : ℕ)
    (discount_rate growth_rate : ℚ) (hf : 0 < fcf) (hy : years ≠ 0)
    (hr : 1 + discount_rate ≠ 0) (hrg : discount_rate - growth_rate ≠ 0) :
    dcfUpside (some fcf) market_cap years discount_rate growth_rate =
      if market_cap > 0 then
        (dcfIntrinsic (some fcf) market_cap years discount_rate growth_rate -
          market_cap) / market_cap * 100
      else 0 := by
  simp only [dcfUpside, dcfIntrinsic,
    dcf_eq_ok fcf market_cap discount_rate growth_rate years hf hy hr hrg]

/-- Witness for C7 at the worked example with a positive and with a zero
market cap. -/
theorem dcf_upside_formula_witness :
    dcfUpside (some 1000000) 1000000 5 (1/10) (1/20) =
      (dcfIntrinsic (some 1000000) 1000000 5 (1/10) (1/20) - 1000000) /
        1000000 * 100
    ∧ dcfUpside (some 1000000) 0 5 (1/10) (1/20) = 0 := by
  constructor
  · have h := dcf_upside_formula 1000000 1000000 5 (1/10) (1/20)
      (by norm_num) (by norm_num) (by norm_num) (by norm_num)
    rw [h, if_pos (by norm_num : (1000000 : ℚ) > 0)]
  · have h := dcf_upside_formula 1000000 0 5 (1/10) (1/20)
      (by norm_num) (by norm_num) (by norm_num) (by norm_num)
    rw [h, if_neg (by norm_num : ¬ (0 : ℚ) > 0)]

/-! ### Claim C8 (sentiment of an empty article list) -/

/-- C8: `analyze_sentiment` returns exactly 0 on the empty article list,
the adjusted upside (upside + sentiment × 50) then equals the raw
upside, and on a non-empty list it returns the arithmetic mean of the
per-article polarity scores. -/
theorem analyze_sentiment_empty_and_mean (polarity : String → ℚ) :
    analyze_sentiment polarity [] = 0
    ∧ (∀ upside, adjusted_upside upside (analyze_sentiment polarity []) = upside)
    ∧ ∀ news_list : List String, news_list ≠ [] →
        analyze_sentiment polarity news_list =
          (news_list.map polarity).sum / news_list.length := by
  refine ⟨rfl, fun upside => ?_, fun news hn => ?_⟩
  · simp [adjusted_upside, analyze_sentiment]
  · simp [analyze_sentiment, hn]

/-- Witness for C8 with a constant polarity of 1/2: empty list gives 0
and leaves the upside 7 unchanged; a two-article list gives the mean. -/
theorem analyze_sentiment_empty_and_mean_witness :
    analyze_sentiment (fun _ => 1/2) [] = 0
    ∧ adjusted_upside 7 (analyze_sentiment (fun _ => 1/2) []) = 7
    ∧ analyze_sentiment (fun _ => 1/2) ["a", "b"] =
        ((["a", "b"].map fun _ => (1/2 : ℚ)).sum) / (["a", "b"] : List String).length := by
  obtain ⟨h1, h2, h3⟩ := analyze_sentiment_empty_and_mean fun _ => (1/2 : ℚ)
  exact ⟨h1, h2 7, h3 ["a", "b"] (by decide)⟩

/-! ### Claim C10 (absence is indistinguishable) -/

/-- C10: `discounted_cash_flow_analysis` returns the same absent value
(`None`) whether the FCF data was unavailable or the FCF was ≤ 0, so
`evaluate_security` cannot distinguish the two failures and takes the
same early-exit path for both. -/
theorem dcf_absent_indistinguishable (f market_cap market_cap' : ℚ)
    (news news' : List String) (polarity polarity' : String → ℚ) (hf : f ≤ 0) :
    discounted_cash_flow_analysis none market_cap 5 (1/10) (1/20) =
      discounted_cash_flow_analysis (some f) market_cap' 5 (1/10) (1/20)
    ∧ evaluate_security none market_cap news polarity = .earlyExit
    ∧ evaluate_security (some f) market_cap' news' polarity' = .earlyExit := by
  have h1 : discounted_cash_flow_analysis none market_cap 5 (1/10) (1/20) = .absent := rfl
  have h2 : discounted_cash_flow_analysis (some f) market_cap' 5 (1/10) (1/20) = .absent := by
    simp [discounted_cash_flow_analysis, hf]
  refine ⟨h1.trans h2.symm, ?_, ?_⟩
  · simp only [evaluate_security, h1]
  · simp only [evaluate_security, h2]

/-- Witness for C10 at FCF unavailable versus FCF = −1, with different
market caps and news inputs. -/
theorem dcf_absent_indistinguishable_witness :
    discounted_cash_flow_analysis none 2 5 (1/10) (1/20) =
      discounted_cash_flow_analysis (some (-1)) 3 5 (1/10) (1/20)
    ∧ evaluate_security none 2 [] (fun _ => 0) = .earlyExit
    ∧ evaluate_security (some (-1)) 3 ["x"] (fun _ => 1) = .earlyExit :=
  dcf_absent_indistinguishable (-1) 2 3 [] ["x"] (fun _ => 0) (fun _ => 1) (by norm_num)

/-! ### Claim C1 (DCF algorithm and worked example) -/

/-- C1: for strictly positive FCF, a nonzero horizon, a well-defined
discount factor and distinct rates, `discounted_cash_flow_analysis`
projects futureFCF[i] = FCF × (1+g)^i for i = 1..years, discounts each by
(1+r)^i, forms the terminal value futureFCF[years] × (1+g) / (r − g),
discounts it by (1+r)^years, and returns
intrinsicValue = sum(discountedFCF) + discountedTV; at FCF = 1000000,
years = 5, r = 1/10, g = 1/20 the worked example's futureFCF[5] =
1276281.5625 and terminal value 26801912.8125 are reproduced. -/
theorem dcf_valuation_formula (fcf market_cap discount_rate growth_rate : ℚ)
    (years : ℕ) (hf : 0 < fcf) (hy : years ≠ 0) (hr : 1 + discount_rate ≠ 0)
    (hrg : discount_rate ≠ growth_rate) :
    (future_fcfs fcf growth_rate years =
      (List.range years).map fun i => fcf * (1 + growth_rate) ^ (i + 1))
    ∧ (∃ res,
        discounted_cash_flow_analysis (some fcf) market_cap years discount_rate
            growth_rate = .ok res
        ∧ res.discounted_fcfs =
            ((List.range years).map fun i =>
              fcf * (1 + growth_rate) ^ (i + 1) / (1 + discount_rate) ^ (i + 1))
        ∧ res.discounted_terminal_value =
            fcf * (1 + growth_rate) ^ years * (1 + growth_rate) /
              (discount_rate - growth_rate) / (1 + discount_rate) ^ years
        ∧ res.intrinsic_value =
            res.discounted_fcfs.sum + res.discounted_terminal_value)
    ∧ (future_fcfs 1000000 (1/20) 5).getLastD 0 = 1276281.5625
    ∧ (future_fcfs 1000000 (1/20) 5).getLastD 0 * (1 + 1/20) / (1/10 - 1/20) =
        26801912.8125 := by
  refine ⟨rfl,
    ⟨_, dcf_eq_ok fcf market_cap discount_rate growth_rate years hf hy hr
        (sub_ne_zero.mpr hrg), rfl, rfl, rfl⟩, ?_, ?_⟩
  · rw [future_fcfs_getLastD 1000000 (1/20) 5 (by norm_num)]; norm_num
  · rw [future_fcfs_getLastD 1000000 (1/20) 5 (by norm_num)]; norm_num

/-- Witness for C1 at the worked example's inputs. -/
theorem dcf_valuation_formula_witness :
    (future_fcfs 1000000 (1/20) 5).getLastD 0 = 1276281.5625
    ∧ (future_fcfs 1000000 (1/20) 5).getLastD 0 * (1 + 1/20) / (1/10 - 1/20) =
        26801912.8125
    ∧ ∃ res, discounted_cash_flow_analysis (some 1000000) 0 5 (1/10) (1/20) = .ok res
        ∧ res.intrinsic_value =
            res.discounted_fcfs.sum + res.discounted_terminal_value := by
  obtain ⟨h1, ⟨res, hok, hd, ht, hi⟩, h5, h6⟩ :=
    dcf_valuation_formula 1000000 0 (1/10) (1/20) 5 (by norm_num) (by norm_num)
      (by norm_num) (by norm_num)
  exact ⟨h5, h6, res, hok, hi⟩

/-! ### Claim C9 (shape and positivity of the per-year list) -/

/-- C9: whenever `discounted_cash_flow_analysis` returns a result for a
strictly positive FCF with 1+g > 0 and 1+r > 0 and a horizon of at least
one year, its per-year discounted-FCF list has exactly `years` entries,
the entry at position i (year i+1) is FCF × (1+g)^(i+1) / (1+r)^(i+1),
and every entry is strictly positive. -/
theorem dcf_per_year_list (fcf market_cap discount_rate growth_rate : ℚ)
    (years : ℕ) (hf : 0 < fcf) (hy : 1 ≤ years) (hg : 0 < 1 + growth_rate)
    (hr : 0 < 1 + discount_rate) :
    ∀ res, discounted_cash_flow_analysis (some fcf) market_cap years discount_rate
        growth_rate = .ok res →
      res.discounted_fcfs.length = years
      ∧ (∀ i, i < years →
          res.discounted_fcfs[i]? =
            some (fcf * (1 + growth_rate) ^ (i + 1) / (1 + discount_rate) ^ (i + 1)))
      ∧ ∀ q ∈ res.discounted_fcfs, 0 < q := by
  intro res hres
  have hy' : years ≠ 0 := Nat.one_le_iff_ne_zero.mp hy
  by_cases hrg : discount_rate - growth_rate = 0
  · exfalso
    have hcrash : discounted_cash_flow_analysis (some fcf) market_cap years
        discount_rate growth_rate = .crash := by
      have h1 : ¬ fcf ≤ 0 := not_le.mpr hf
      have h2 : ¬ (1 + discount_rate = 0 ∧ years ≠ 0) := fun h => absurd h.1 (ne_of_gt hr)
      simp [discounted_cash_flow_analysis, h1, h2, hy', hrg]
    rw [hcrash] at hres
    exact absurd hres (by simp)
  · rw [dcf_eq_ok fcf market_cap discount_rate growth_rate years hf hy'
      (ne_of_gt hr) hrg] at hres
    injection hres with h
    subst h
    refine ⟨by simp, fun i hi => ?_, fun q hq => ?_⟩
    · simp [List.getElem?_map, List.getElem?_range hi]
    · simp only [List.mem_map, List.mem_range] at hq
      obtain ⟨i, hi, rfl⟩ := hq
      exact div_pos (mul_pos hf (pow_pos hg _)) (pow_pos hr _)

/-- Witness for C9 at FCF = 1, one year, r = 1/10, g = 1/20, where the
returned list is [21/22]. -/
theorem dcf_per_year_list_witness :
    (([21/22] : List ℚ).length = 1)
    ∧ ([(21/22 : ℚ)][0]? = some (1 * (1 + 1/20) ^ (0 + 1) / (1 + 1/10) ^ (0 + 1)))
    ∧ ∀ q ∈ [(21/22 : ℚ)], 0 < q := by
  have h := dcf_per_year_list 1 0 (1/10) (1/20) 1 (by norm_num) (le_refl 1)
    (by norm_num) (by norm_num) ⟨21, 0, 0, [21/22], 441/22⟩
    (by norm_num [discounted_cash_flow_analysis, future_fcfs, List.mapIdx,
      List.mapIdx.go, List.range_succ, List.range_zero])
  exact ⟨h.1, h.2.1 0 (by norm_num), h.2.2⟩

/-! ### Claim C3 (positivity and monotonicity of the intrinsic value) -/

/-- C3 counterexample: the claim quantifies over every growthRate below
discountRate, but at FCF = 1, growthRate = −3 < discountRate = −5/2 the
intrinsic value is negative (the terminal value dominates with a negative
sign), so the claimed strict positivity fails without the additional
bound growthRate > −1. -/
theorem dcf_intrinsic_positivity_counterexample :
    (0 : ℚ) < 1 ∧ (-3 : ℚ) < -5/2 ∧ dcfIntrinsic (some 1) 0 5 (-5/2) (-3) < 0 := by
  refine ⟨by norm_num, by norm_num, ?_⟩
  have h : dcfIntrinsic (some 1) 0 5 (-5/2) (-3) = -4 := by
    norm_num [dcfIntrinsic, discounted_cash_flow_analysis, future_fcfs, List.mapIdx,
      List.mapIdx.go, List.range_succ, List.range_zero]
  rw [h]; norm_num

/-- Closed form of the intrinsic value on the non-crashing domain. -/
lemma dcfIntrinsic_formula (fcf market_cap discount_rate growth_rate : ℚ)
    (years : ℕ) (hf : 0 < fcf) (hy : years ≠ 0) (hr : 1 + discount_rate ≠ 0)
    (hrg : discount_rate - growth_rate ≠ 0) :
    dcfIntrinsic (some fcf) market_cap years discount_rate growth_rate =
      (∑ i ∈ Finset.range years,
        fcf * (1 + growth_rate) ^ (i + 1) / (1 + discount_rate) ^ (i + 1))
      + fcf * (1 + growth_rate) ^ years * (1 + growth_rate) /
          (discount_rate - growth_rate) / (1 + discount_rate) ^ years := by
  simp only [dcfIntrinsic,
    dcf_eq_ok fcf market_cap discount_rate growth_rate years hf hy hr hrg]
  rw [sum_map_range]

/-- C3 (amended): for FCF > 0 and −1 < growthRate < discountRate, the
intrinsic value is strictly positive, strictly increasing in growthRate
(discountRate fixed) and strictly decreasing in discountRate (growthRate
fixed).  The bound −1 < growthRate, forced by the counterexample, keeps
the growth and discount factors positive. -/
theorem dcf_intrinsic_pos_mono (fcf market_cap : ℚ) (years : ℕ)
    (hf : 0 < fcf) (hy : years ≠ 0) :
    ∀ discount_rate growth_rate : ℚ, -1 < growth_rate →
      growth_rate < discount_rate →
      0 < dcfIntrinsic (some fcf) market_cap years discount_rate growth_rate
      ∧ (∀ g', growth_rate < g' → g' < discount_rate →
          dcfIntrinsic (some fcf) market_cap years discount_rate growth_rate <
            dcfIntrinsic (some fcf) market_cap years discount_rate g')
      ∧ (∀ r', discount_rate < r' →
          dcfIntrinsic (some fcf) market_cap years r' growth_rate <
            dcfIntrinsic (some fcf) market_cap years discount_rate growth_rate) := by
  intro r g hg hgr
  have hg1 : 0 < 1 + g := by linarith
  have hr1 : 0 < 1 + r := by linarith
  have hrg : 0 < r - g := by linarith
  refine ⟨?_, ?_, ?_⟩
  · rw [dcfIntrinsic_formula fcf market_cap r g years hf hy (ne_of_gt hr1)
      (ne_of_gt hrg)]
    have hterm : 0 < fcf * (1 + g) ^ years * (1 + g) / (r - g) / (1 + r) ^ years :=
      div_pos (div_pos (mul_pos (mul_pos hf (pow_pos hg1 _)) hg1) hrg)
        (pow_pos hr1 _)
    exact add_pos_of_nonneg_of_pos
      (Finset.sum_nonneg fun i _ =>
        le_of_lt (div_pos (mul_pos hf (pow_pos hg1 _)) (pow_pos hr1 _)))
      hterm
  · intro g' hgg' hg'r
    have hg'1 : 0 < 1 + g' := by linarith
    have hrg' : 0 < r - g' := by linarith
    rw [dcfIntrinsic_formula fcf market_cap r g years hf hy (ne_of_gt hr1)
      (ne_of_gt hrg),
      dcfIntrinsic_formula fcf market_cap r g' years hf hy (ne_of_gt hr1)
      (ne_of_gt hrg')]
    refine add_lt_add ?_ ?_
    · refine Finset.sum_lt_sum_of_nonempty (Finset.nonempty_range_iff.mpr hy)
        fun i _ => ?_
      exact (div_lt_div_right (pow_pos hr1 (i + 1))).mpr
        (mul_lt_mul_of_pos_left
          (pow_lt_pow_left (by linarith) hg1.le (Nat.succ_ne_zero i)) hf)
    · refine (div_lt_div_right (pow_pos hr1 years)).mpr ?_
      have hnum : fcf * (1 + g) ^ years * (1 + g) < fcf * (1 + g') ^ years * (1 + g') := by
        rw [mul_assoc, mul_assoc, ← pow_succ, ← pow_succ]
        exact mul_lt_mul_of_pos_left
          (pow_lt_pow_left (by linarith) hg1.le (Nat.succ_ne_zero years)) hf
      exact div_lt_div hnum (by linarith) (by positivity) hrg'
  · intro r' hrr'
    have hr'1 : 0 < 1 + r' := by linarith
    have hr'g : 0 < r' - g := by linarith
    rw [dcfIntrinsic_formula fcf market_cap r g years hf hy (ne_of_gt hr1)
      (ne_of_gt hrg),
      dcfIntrinsic_formula fcf market_cap r' g years hf hy (ne_of_gt hr'1)
      (ne_of_gt hr'g)]
    refine add_lt_add ?_ ?_
    · refine Finset.sum_lt_sum_of_nonempty (Finset.nonempty_range_iff.mpr hy)
        fun i _ => ?_
      exact div_lt_div_of_pos_left (mul_pos hf (pow_pos hg1 _))
        (pow_pos hr1 (i + 1))
        (pow_lt_pow_left (by linarith) hr1.le (Nat.succ_ne_zero i))
    · rw [div_div, div_div]
      refine div_lt_div_of_pos_left (by positivity) (by positivity) ?_
      exact mul_lt_mul'' (by linarith) (pow_lt_pow_left (by linarith) hr1.le hy)
        hrg.le (pow_pos hr1 years).le

/-- Witness for C3 (amended) at FCF = 1, 5 years, r = 1/10, g = 1/20,
with g raised to 3/50 and r raised to 11/100. -/
theorem dcf_intrinsic_pos_mono_witness :
    0 < dcfIntrinsic (some 1) 0 5 (1/10) (1/20)
    ∧ dcfIntrinsic (some 1) 0 5 (1/10) (1/20) <
        dcfIntrinsic (some 1) 0 5 (1/10) (3/50)
    ∧ dcfIntrinsic (some 1) 0 5 (11/100) (1/20) <
        dcfIntrinsic (some 1) 0 5 (1/10) (1/20) := by
  obtain ⟨h1, h2, h3⟩ := dcf_intrinsic_pos_mono 1 0 5 (by norm_num) (by norm_num)
    (1/10) (1/20) (by norm_num) (by norm_num)
  exact ⟨h1, h2 (3/50) (by norm_num) (by norm_num), h3 (11/100) (by norm_num)⟩
